import Mathlib

/-!
# Verification of the `nonsense` Markov-chain sentence generator

A shallow embedding of `nonsense.py` (class `MarkovChain`): the tokenizer,
the chain builder `generate_markov_chain` (including its progress-reporting
arithmetic, which can raise a division-by-zero error in the original), the
probability UPDATE pass, the cache-reuse logic of `input`, the weighted
sampler `choose_next_word`, and the sentence generator `generate_sentence`
with its growth loop and quality-retry recursion.

Machine floats are modelled as exact rationals; SQLite tables are modelled
as Lean lists of rows; the global random source is modelled as an explicit
state-threaded environment.
-/

namespace Nonsense

/-- Character class of the token pattern `([\w\.\!\,]+)`: word characters
(alphanumerics or underscore), period, exclamation mark, comma. -/
def isWordChar (c : Char) : Bool :=
  c.isAlphanum || c = '_' || c = '.' || c = '!' || c = ','

/-- Auxiliary scanner: splits a character list into the maximal runs of
`isWordChar` characters, i.e. the successive matches of `WORD_RE`. The
second argument accumulates the (reversed) characters of the run being
scanned. -/
def tokenizeAux : List Char → List Char → List String
  | [], cur => if cur.isEmpty then [] else [String.mk cur.reverse]
  | c :: cs, cur =>
    if isWordChar c then
      tokenizeAux cs (c :: cur)
    else if cur.isEmpty then
      tokenizeAux cs []
    else
      String.mk cur.reverse :: tokenizeAux cs []

/-- All matches of `WORD_RE` in the input, in order (`re.finditer`). -/
def tokenize (s : String) : List String :=
  tokenizeAux s.data []

/-- Python `str.lower()` on a token (ASCII model). -/
def lowerStr (s : String) : String :=
  String.mk (s.data.map Char.toLower)

/-- The pattern `NO_REAL_WORD_RE = ^[\d\.\,\:\;]*$`: the token consists only
of digits, periods, commas, colons and semicolons. -/
def isDegenerate (s : String) : Bool :=
  s.data.all fun c => c.isDigit || c = '.' || c = ',' || c = ':' || c = ';'

/-- `prev_prefixes and prev_prefixes[-1][-1] == "."`: the context list is
nonempty and its last entry ends with a period. -/
def lastEndsWithDot (prevs : List String) : Bool :=
  match prevs.getLast? with
  | some p => p.data.getLast? = some '.'
  | none => false

/-- Errors the build loop of `generate_markov_chain` can raise:
`divisionByZero` models Python's `ZeroDivisionError` from
`counter % (word_count_estimate/10)` when the integer division is 0;
`indexError` models `prev_prefixes.pop(0)` on an empty list (only
reachable with `lookback = 0`). -/
inductive BuildErr where
  | divisionByZero
  | indexError
deriving DecidableEq, Repr

/-- The word loop of `generate_markov_chain` (lines 66-97): walks the
`WORD_RE` matches, lowercases each, skips degenerate tokens, performs the
progress computation `counter % (word_count_estimate/10)` (an exception if
the divisor `step` is 0), records one `(context, word)` pair per tracked
context plus a `("^", word)` pair after a period, and advances the sliding
context window. Returns the raw occurrence pairs in emission order. -/
def chainLoop (lookback step : Nat) :
    List String → Nat → List String → List (String × String) →
    Except BuildErr (List (String × String))
  | [], _, _, acc => Except.ok acc
  | w :: ws, counter, prevs, acc =>
    let word := lowerStr w
    if isDegenerate word then
      chainLoop lookback step ws (counter + 1) prevs acc
    else if step = 0 then
      Except.error BuildErr.divisionByZero
    else
      let acc1 := acc ++ prevs.map fun p => (p, word)
      let acc2 := if lastEndsWithDot prevs then acc1 ++ [("^", word)] else acc1
      if lookback ≤ prevs.length then
        match prevs with
        | [] => Except.error BuildErr.indexError
        | _ :: rest =>
          chainLoop lookback step ws (counter + 1)
            (rest.map (fun p => p ++ " " ++ word) ++ [word]) acc2
      else
        chainLoop lookback step ws (counter + 1)
          (prevs.map (fun p => p ++ " " ++ word) ++ [word]) acc2

/-- One row of the `markov_chain` table. -/
structure ChainRow where
  pre : String
  suf : String
  numOcc : Nat
  prob : ℚ
deriving DecidableEq, Repr

/-- `count(*)` for a `(prefix, suffix)` group: the number of raw occurrence
rows matching the pair (lines 106-107). -/
def numOccurrences (occs : List (String × String)) (p s : String) : Nat :=
  (occs.filter fun r => r.1 = p ∧ r.2 = s).length

/-- `sum(num_occurrences) ... GROUP BY prefix` (line 116): the total of the
grouped counts over all suffix rows of context `p`. -/
def totalOccurrences (occs : List (String × String)) (p : String) : Nat :=
  ((occs.dedup.filter fun r => r.1 = p).map fun r => numOccurrences occs r.1 r.2).sum

/-- The final `markov_chain` table: one row per distinct `(prefix, suffix)`
pair with its occurrence count (the `INSERT ... GROUP BY` of lines 106-107)
and the probability set by the UPDATE pass of lines 116-117,
`num_occurrences / sum(num_occurrences)` for its context. -/
def chainTable (occs : List (String × String)) : List ChainRow :=
  occs.dedup.map fun r =>
    ⟨r.1, r.2, numOccurrences occs r.1 r.2,
      (numOccurrences occs r.1 r.2 : ℚ) / (totalOccurrences occs r.1 : ℚ)⟩

/-- The estimate `input.count(' ') + 1` of line 64. -/
def wordCountEstimate (input : String) : Nat :=
  input.data.count ' ' + 1

/-- `generate_markov_chain`: estimates the word count as
`input.count(' ') + 1`, runs the word loop with progress divisor
`word_count_estimate / 10` (integer division), then aggregates the raw
occurrences into the final table. -/
def generateMarkovChain (lookback : Nat) (input : String) : Except BuildErr (List ChainRow) :=
  (chainLoop lookback (wordCountEstimate input / 10) (tokenize input) 0 [] []).map chainTable

/-- The SQLite database behind one cache identity `(input_file, lookback)`:
whether the `markov_chain` table exists in `sqlite_master`, its rows, and a
counter of how many times the corpus file has been opened and scanned. -/
structure Store where
  hasTable : Bool
  rows : List ChainRow
  reads : Nat
deriving DecidableEq, Repr

/-- `MarkovChain.input` (lines 42-49): if the `markov_chain` table already
exists in the connected database, do nothing; otherwise create the table,
open and read the corpus file (incrementing the read counter), and run
`generate_markov_chain` on its text. -/
def inputOp (corpus : String) (lookback : Nat) (st : Store) : Except BuildErr Store :=
  if st.hasTable then
    Except.ok st
  else
    (generateMarkovChain lookback corpus).map fun rows =>
      ⟨true, rows, st.reads + 1⟩

/-- The cache file name `"%s.markovdb~%d" % (input_file, lookback)` that
keys a store to its corpus path and lookback order (line 35). -/
def dbKey (inputFile : String) (lookback : Nat) : String :=
  inputFile ++ ".markovdb~" ++ toString lookback

/-- Cumulative-mass scan of `choose_next_word` (lines 127-130): walk the
suffix rows in the given order, accumulating probability into `i`, and
return the first suffix once `i` reaches the random draw `r`. -/
def chooseNextAux (r : ℚ) : List (String × ℚ) → ℚ → Option String
  | [], _ => none
  | row :: rest, i =>
    if r ≤ i + row.2 then some row.1 else chooseNextAux r rest (i + row.2)

/-- `choose_next_word`: given the `(suffix, probability)` rows of a context
(in the order produced by `ORDER BY RANDOM()`) and the draw
`random_choice = r`, scan with accumulator starting at 0; falls off the end
returning nothing. -/
def chooseNextWord (rows : List (String × ℚ)) (r : ℚ) : Option String :=
  chooseNextAux r rows 0

/-- `SELECT suffix, probability FROM markov_chain WHERE prefix = p`: the
suffix rows of context `p` in table order (before the random shuffle). -/
def selRows (rows : List ChainRow) (p : String) : List (String × ℚ) :=
  (rows.filter fun row => row.pre = p).map fun row => (row.suf, row.prob)

/-- Sum of the probabilities of all suffix rows of context `p` in the
table. -/
def sumProb (rows : List ChainRow) (p : String) : ℚ :=
  ((rows.filter fun row => row.pre = p).map fun row => row.prob).sum

/-- Total of the stored occurrence counts of all suffix rows of context
`p`, read off the final table. -/
def tableTotal (rows : List ChainRow) (p : String) : Nat :=
  ((rows.filter fun row => row.pre = p).map fun row => row.numOcc).sum

/-- Python truthiness of `choose_next_word`'s result: `None` and the empty
string are falsy. -/
def truthy : Option String → Bool
  | none => false
  | some s => s ≠ ""

/-- The random source and database reads of the sentence generator,
threaded as explicit state: `chooseNext` models `self.choose_next_word`
(whose answer depends on the table and on fresh random draws), `randint`
models `random.randint(1, n)`, and `escapeRoll` models the retry test
`random.random() * 10 < 1`. -/
structure GenEnv (σ : Type) where
  chooseNext : σ → String → Option String × σ
  randint : σ → Nat → Nat × σ
  escapeRoll : σ → Bool × σ

/-- Errors `generate_sentence` can raise: `noneCapitalize` models the
`AttributeError` from `first_word.capitalize()` when `first_word` is
`None` (line 143); `noneTailFind` would model an `AttributeError` from
`word_queue[-1].find(".")` on a `None` tail (line 145); `outOfFuel` marks
exhaustion of the modelling bound on retry recursion depth. -/
inductive GenErr where
  | noneCapitalize
  | noneTailFind
  | outOfFuel
deriving DecidableEq, Repr

/-- `" ".join(word_queue)` (line 161). -/
def joinSpace (q : List String) : String :=
  String.intercalate " " q

/-- Python `str.capitalize()`: first character uppercased, the rest
lowercased (ASCII model). -/
def pyCapitalize (s : String) : String :=
  match s.data with
  | [] => ""
  | c :: cs => String.mk (c.toUpper :: cs.map Char.toLower)

/-- Capitalize the first token of a queue, leaving the others unchanged
(the output shape §4.5 step 3 of the spec describes). -/
def capFirst : List String → List String
  | [] => []
  | w :: ws => pyCapitalize w :: ws

/-- `start_word or "^"` (line 141): the start word if truthy, else the
root-context symbol. -/
def pyOrHat : Option String → String
  | some sw => if sw = "" then "^" else sw
  | none => "^"

/-- `word_queue[-1]` on a nonempty queue. -/
def lastTok (q : List String) : String :=
  q.getLastD ""

/-- `word_queue[-1].find(".") != -1`: the token has a period among its
characters. -/
def containsDot (s : String) : Bool :=
  s.data.any fun c => c = '.'

/-- `word_queue[-n:]`: the trailing `n`-token window. -/
def lastN (n : Nat) (q : List String) : List String :=
  q.drop (q.length - n)

/-- `reversed(range(1, k + 1))`: the window lengths `k, k-1, ..., 1`. -/
def descSeq (k : Nat) : List Nat :=
  (List.range' 1 k).reverse

/-- Lines 133-135: `first_word = None`, then, if a truthy start word was
given, `first_word = self.choose_next_word(start_word.lower())`. -/
def seedFirst {σ : Type} (env : GenEnv σ) (startWord : Option String) (s : σ) :
    Option String × σ :=
  match startWord with
  | some sw => if sw = "" then (none, s) else env.chooseNext s (lowerStr sw)
  | none => (none, s)

/-- The seeding step of `generate_sentence` (lines 133-143): look up the
lowercased start word if one was given; if that yields a truthy
continuation the queue is `[start_word, first_word]`, otherwise look up
`start_word or "^"` and seed the queue with the answer alone — raising
the `AttributeError` of `None.capitalize()` (line 143) when that answer
is `None`. -/
def seed {σ : Type} (env : GenEnv σ) (startWord : Option String) (s : σ) :
    Except GenErr (List String × σ) :=
  if truthy (seedFirst env startWord s).1 then
    Except.ok ([startWord.getD "", (seedFirst env startWord s).1.getD ""],
      (seedFirst env startWord s).2)
  else
    match env.chooseNext (seedFirst env startWord s).2 (pyOrHat startWord) with
    | (none, _) => Except.error GenErr.noneCapitalize
    | (some w, s1) => Except.ok ([w], s1)

/-- The inner `for num_words_to_try in reversed(range(1, k+1))` loop of
lines 149-154: skip window lengths longer than the queue, query the
sampler on the joined trailing window, stop at the first truthy
suggestion. A falsy (`None` or empty) final suggestion is reported as
`none`, exactly as the `if not suggestion: break` of line 156 treats it. -/
def tryWindows {σ : Type} (env : GenEnv σ) (queue : List String) :
    List Nat → σ → Option String × σ
  | [], s => (none, s)
  | n :: rest, s =>
    if n ≤ queue.length then
      if truthy (env.chooseNext s (joinSpace (lastN n queue))).1 then
        env.chooseNext s (joinSpace (lastN n queue))
      else
        tryWindows env queue rest (env.chooseNext s (joinSpace (lastN n queue))).2
    else
      tryWindows env queue rest s

/-- The growth loop of `generate_sentence` (lines 145-159), with an
explicit bound `fuel` on the number of iterations (the Python loop has no
such bound): while the last queued token does not contain `.`, draw
`k = randint(1, lookback)`, try the shrinking windows, and either append
the suggestion or stop with the queue built so far. -/
def growLoop {σ : Type} (env : GenEnv σ) (lookback : Nat) :
    Nat → List String → σ → List String × σ
  | 0, queue, s => (queue, s)
  | fuel + 1, queue, s =>
    if containsDot (lastTok queue) then
      (queue, s)
    else
      match tryWindows env queue (descSeq (env.randint s lookback).1)
          (env.randint s lookback).2 with
      | (none, s2) => (queue, s2)
      | (some w, s2) => growLoop env lookback fuel (queue ++ [w]) s2

/-- `generate_sentence` (lines 132-168): seed the queue, run the growth
loop, join the queue into `out` (line 161 — overwriting the capitalized
string computed at lines 139/143), and apply the quality gate of line 163
with Python's operator precedence,
`len(queue) < min_words or (len(out) > max_length and not
prevent_recursion)`; on a retry, recurse with all-default arguments and a
fresh escape roll. `rfuel` bounds the retry recursion depth (the Python
recursion is unbounded). -/
def generateSentence {σ : Type} (env : GenEnv σ) (lookback loopFuel : Nat) :
    Nat → σ → Option String → Nat → Nat → Bool → Except GenErr (String × σ)
  | rfuel, s, startWord, minWords, maxLength, preventRecursion =>
    match seed env startWord s with
    | Except.error e => Except.error e
    | Except.ok (q0, s0) =>
      match growLoop env lookback loopFuel q0 s0 with
      | (q, s1) =>
        if q.length < minWords ||
            (maxLength < (joinSpace q).length && !preventRecursion) then
          match rfuel with
          | 0 => Except.error GenErr.outOfFuel
          | rfuel + 1 =>
            generateSentence env lookback loopFuel rfuel (env.escapeRoll s1).2
              none 5 140 (env.escapeRoll s1).1
        else
          Except.ok (joinSpace q, s1)

/-- A script-driven random environment: `chooseNext` pops the head of a
pre-recorded response list, `randint` always returns 1, the escape roll is
always false. Used to evaluate the generator on concrete runs. -/
def scriptEnv : GenEnv (List (Option String)) where
  chooseNext s _ := match s with
    | [] => (none, [])
    | r :: rest => (r, rest)
  randint s _ := (1, s)
  escapeRoll s := (false, s)

/-- An environment whose sampler never finds a continuation. -/
def noneEnv : GenEnv Unit where
  chooseNext s _ := (none, s)
  randint s _ := (1, s)
  escapeRoll s := (false, s)

theorem numOcc_eq_count (occs : List (String × String)) (r : String × String)
    [instB : BEq (String × String)] [@LawfulBEq (String × String) instB] :
    numOccurrences occs r.1 r.2 = @List.count _ instB r occs := by
  rw [numOccurrences]
  rw [show @List.count _ instB r occs =
    @List.countP _ (fun x => @BEq.beq _ instB x r) occs from rfl]
  rw [List.countP_eq_length_filter]
  apply congrArg List.length
  apply List.filter_congr
  intro x _
  by_cases h1 : x = r
  · subst h1; simp
  · have h2 : ¬(x.1 = r.1 ∧ x.2 = r.2) := fun hc => h1 (Prod.ext hc.1 hc.2)
    simp [h1, h2]

theorem total_eq_length (occs : List (String × String)) (p : String) :
    totalOccurrences occs p = (occs.filter fun r => r.1 = p).length := by
  unfold totalOccurrences
  rw [← List.countP_eq_length_filter, ← List.sum_map_count_dedup_filter_eq_countP
    (fun r => decide (r.1 = p)) occs]
  apply congrArg List.sum
  apply List.map_congr_left
  intro r _
  exact @numOcc_eq_count occs r instBEqOfDecidableEq instLawfulBEq

theorem chainTable_filter (occs : List (String × String)) (p : String) :
    (chainTable occs).filter (fun row => row.pre = p) =
      (occs.dedup.filter fun r => r.1 = p).map fun r =>
        (⟨r.1, r.2, numOccurrences occs r.1 r.2,
          (numOccurrences occs r.1 r.2 : ℚ) / (totalOccurrences occs r.1 : ℚ)⟩ : ChainRow) := by
  unfold chainTable
  rw [List.filter_map]
  rfl

theorem total_pos_of_mem (occs : List (String × String)) {p : String}
    (hp : ∃ r ∈ chainTable occs, r.pre = p) : 0 < totalOccurrences occs p := by
  obtain ⟨row, hrow, hpre⟩ := hp
  obtain ⟨q, hq, rfl⟩ := List.mem_map.1 hrow
  rw [total_eq_length]
  apply List.length_pos_of_mem
  refine List.mem_filter.2 ⟨List.mem_dedup.1 hq, ?_⟩
  simpa using hpre

theorem sumProb_chainTable (occs : List (String × String)) (p : String)
    (hp : 0 < totalOccurrences occs p) : sumProb (chainTable occs) p = 1 := by
  unfold sumProb
  rw [chainTable_filter, List.map_map]
  have hmap : ((occs.dedup.filter fun r => r.1 = p).map
        ((fun row : ChainRow => row.prob) ∘ fun r =>
          (⟨r.1, r.2, numOccurrences occs r.1 r.2,
            (numOccurrences occs r.1 r.2 : ℚ) / (totalOccurrences occs r.1 : ℚ)⟩ : ChainRow))) =
      ((occs.dedup.filter fun r => r.1 = p).map fun r =>
        (numOccurrences occs r.1 r.2 : ℚ) * ((totalOccurrences occs p : ℚ))⁻¹) := by
    apply List.map_congr_left
    intro r hr
    have hr1 : r.1 = p := by simpa using (List.mem_filter.1 hr).2
    simp [Function.comp, hr1, div_eq_mul_inv]
  rw [hmap, List.sum_map_mul_right]
  have hsum : ((occs.dedup.filter fun r => r.1 = p).map fun r =>
      ((numOccurrences occs r.1 r.2 : ℚ))).sum =
      ((((occs.dedup.filter fun r => r.1 = p).map fun r =>
        numOccurrences occs r.1 r.2).sum : ℕ) : ℚ) := by
    rw [Nat.cast_list_sum, List.map_map]
    rfl
  rw [hsum]
  exact mul_inv_cancel₀ (Nat.cast_ne_zero.2 hp.ne')

theorem tableTotal_chainTable (occs : List (String × String)) (p : String) :
    tableTotal (chainTable occs) p = totalOccurrences occs p := by
  unfold tableTotal
  rw [chainTable_filter, List.map_map]
  rfl

theorem generateMarkovChain_ok {lb : Nat} {corpus : String} {rows : List ChainRow}
    (hok : generateMarkovChain lb corpus = Except.ok rows) :
    ∃ occs, chainLoop lb (wordCountEstimate corpus / 10) (tokenize corpus) 0 [] [] =
      Except.ok occs ∧ rows = chainTable occs := by
  rw [generateMarkovChain] at hok
  cases hc : chainLoop lb (wordCountEstimate corpus / 10) (tokenize corpus) 0 [] [] with
  | error e => rw [hc] at hok; exact absurd hok (by simp [Except.map])
  | ok occs =>
    rw [hc] at hok
    refine ⟨occs, rfl, ?_⟩
    simpa [Except.map] using hok.symm

/-- C1: after a successful run of `generate_markov_chain` (ending in the
probability UPDATE pass), for every context present in the resulting
`markov_chain` table, the probabilities of its suffix rows sum to exactly 1
(hence to 1 within the 1e-9 tolerance), and every row's probability is its
`num_occurrences` divided by the total `num_occurrences` over all suffix
rows of that context. -/
theorem probability_normalization (lb : Nat) (corpus : String) (rows : List ChainRow)
    (p : String) (hok : generateMarkovChain lb corpus = Except.ok rows)
    (hp : ∃ r ∈ rows, r.pre = p) :
    sumProb rows p = 1 ∧ |sumProb rows p - 1| ≤ 1 / 1000000000 ∧
      ∀ r ∈ rows, r.pre = p → r.prob = (r.numOcc : ℚ) / (tableTotal rows p : ℚ) := by
  obtain ⟨occs, -, rfl⟩ := generateMarkovChain_ok hok
  have hsum : sumProb (chainTable occs) p = 1 :=
    sumProb_chainTable occs p (total_pos_of_mem occs hp)
  refine ⟨hsum, by rw [hsum]; norm_num, ?_⟩
  intro r hr hpre
  obtain ⟨q, -, rfl⟩ := List.mem_map.1 hr
  have hq1 : q.1 = p := hpre
  simp only [tableTotal_chainTable]
  rw [← hq1]

/-- Witness for C1: the ten-word corpus builds successfully and the root
context's suffix probabilities sum to 1. -/
theorem probability_normalization_witness :
    ∃ rows, generateMarkovChain 1 "cats run. dogs run. cats run. dogs run. cats run." =
      Except.ok rows ∧ sumProb rows "^" = 1 :=
  ⟨_, rfl, (probability_normalization 1
    "cats run. dogs run. cats run. dogs run. cats run." _ "^" rfl (by decide)).1⟩

theorem chainLoop_step_zero (lb : Nat) :
    ∀ (ws : List String) (counter : Nat) (prevs : List String)
      (acc : List (String × String)),
      (∃ w ∈ ws, isDegenerate (lowerStr w) = false) →
      chainLoop lb 0 ws counter prevs acc = Except.error BuildErr.divisionByZero := by
  intro ws
  induction ws with
  | nil => intro _ _ _ h; simp at h
  | cons w ws ih =>
    intro counter prevs acc h
    rw [chainLoop]
    by_cases hw : isDegenerate (lowerStr w) = true
    · rw [if_pos hw]
      apply ih
      obtain ⟨w0, hmem, hdeg⟩ := h
      rcases List.mem_cons.1 hmem with h0 | h0
      · rw [h0] at hdeg; rw [hdeg] at hw; exact absurd hw (by simp)
      · exact ⟨w0, h0, hdeg⟩
    · rw [if_neg hw, if_pos rfl]

/-- C9: on any input whose word-count estimate (space count plus one) is
below 10 and that contains at least one non-degenerate token,
`generate_markov_chain` raises the division-by-zero error of the progress
computation `counter % (word_count_estimate/10)`, so chain construction
fails on such small corpora instead of completing. -/
theorem small_corpus_divzero (lb : Nat) (input : String)
    (hsmall : wordCountEstimate input < 10)
    (hreal : ∃ w ∈ tokenize input, isDegenerate (lowerStr w) = false) :
    generateMarkovChain lb input = Except.error BuildErr.divisionByZero := by
  rw [generateMarkovChain, Nat.div_eq_of_lt hsmall,
    chainLoop_step_zero lb (tokenize input) 0 [] [] hreal]
  rfl

/-- Witness for C9: `"Hi there."` has estimate 2 and the real token `hi`,
and the build errors. -/
theorem small_corpus_divzero_witness :
    generateMarkovChain 3 "Hi there." = Except.error BuildErr.divisionByZero :=
  small_corpus_divzero 3 "Hi there." (by decide) (by decide)

/-- C2 (code bug): for the spec's corpus `"Cats run. Dogs run."` the build
does NOT succeed for any lookback — the word-count estimate is 4, the
integer division `4/10` is 0, and the progress computation raises a
division-by-zero error at the first real token. The data the spec expects
is produced only if the progress computation is bypassed: running the word
loop with a nonzero progress divisor does yield a `("^", "dogs")`
root-context occurrence (shown here for lookback 1 and 3). -/
theorem root_continuity_bug :
    (∀ lb : Nat, generateMarkovChain lb "Cats run. Dogs run." =
      Except.error BuildErr.divisionByZero) ∧
    (∃ occs, chainLoop 1 1 (tokenize "Cats run. Dogs run.") 0 [] [] = Except.ok occs ∧
      ("^", "dogs") ∈ occs) ∧
    (∃ occs, chainLoop 3 1 (tokenize "Cats run. Dogs run.") 0 [] [] = Except.ok occs ∧
      ("^", "dogs") ∈ occs) := by
  refine ⟨fun lb => ?_, ⟨_, rfl, by decide⟩, ⟨_, rfl, by decide⟩⟩
  rw [generateMarkovChain,
    show wordCountEstimate "Cats run. Dogs run." / 10 = 0 from rfl,
    chainLoop_step_zero lb (tokenize "Cats run. Dogs run.") 0 [] [] (by decide)]
  rfl

/-- C5: if the `markov_chain` table for the connected cache identity
already exists when `input()` is called, the corpus file is not opened or
re-scanned (the read counter and every row are unchanged); only when the
table is absent is the store rebuilt from scratch by reading the corpus
and running `generate_markov_chain`. -/
theorem cache_reuse (corpus : String) (lb : Nat) (st : Store) :
    (st.hasTable = true → inputOp corpus lb st = Except.ok st) ∧
    (st.hasTable = false → inputOp corpus lb st =
      (generateMarkovChain lb corpus).map fun rows =>
        (⟨true, rows, st.reads + 1⟩ : Store)) := by
  unfold inputOp
  constructor <;> intro h <;> simp [h]

/-- Witness for C5: a store whose table exists is returned untouched. -/
theorem cache_reuse_witness :
    inputOp "corpus.txt" 3 ⟨true, [], 5⟩ = Except.ok ⟨true, [], 5⟩ :=
  (cache_reuse "corpus.txt" 3 ⟨true, [], 5⟩).1 rfl

theorem chooseNextAux_mem (r : ℚ) :
    ∀ (rows : List (String × ℚ)) (i : ℚ) (s : String),
      chooseNextAux r rows i = some s → ∃ q, (s, q) ∈ rows := by
  intro rows
  induction rows with
  | nil => intro i s h; simp [chooseNextAux] at h
  | cons row rest ih =>
    intro i s h
    rw [chooseNextAux] at h
    by_cases hc : r ≤ i + row.2
    · rw [if_pos hc] at h
      have hs : row.1 = s := Option.some.inj h
      subst hs
      exact ⟨row.2, by rw [Prod.mk.eta]; exact List.mem_cons_self row rest⟩
    · rw [if_neg hc] at h
      obtain ⟨q, hq⟩ := ih (i + row.2) s h
      exact ⟨q, List.mem_cons_of_mem row hq⟩

theorem chainTable_prob_pos (occs : List (String × String)) :
    ∀ row ∈ chainTable occs, 0 < row.prob := by
  intro row hrow
  obtain ⟨q, hq, rfl⟩ := List.mem_map.1 hrow
  have hqmem : q ∈ occs := List.mem_dedup.1 hq
  have hnum : 0 < numOccurrences occs q.1 q.2 := by
    apply List.length_pos_of_mem
    refine List.mem_filter.2 ⟨hqmem, by simp⟩
  have htot : 0 < totalOccurrences occs q.1 := by
    rw [total_eq_length]
    apply List.length_pos_of_mem
    exact List.mem_filter.2 ⟨hqmem, by simp⟩
  exact div_pos (by exact_mod_cast hnum) (by exact_mod_cast htot)

/-- C6: over a table built by the chain builder, `choose_next_word`
returns nothing whenever the context has no suffix rows (for every random
order and draw), and whenever it returns a suffix that suffix is a row of
the context whose recorded probability is strictly positive — it never
returns a suffix of zero probability. -/
theorem sampler_boundedness (occs : List (String × String)) (p : String)
    (perm : List (String × ℚ)) (r : ℚ)
    (hperm : perm.Perm (selRows (chainTable occs) p)) :
    (selRows (chainTable occs) p = [] → chooseNextWord perm r = none) ∧
    (∀ s, chooseNextWord perm r = some s →
      ∃ q, (s, q) ∈ selRows (chainTable occs) p ∧ 0 < q) := by
  constructor
  · intro hnil
    rw [hnil] at hperm
    rw [hperm.eq_nil]
    rfl
  · intro s hs
    obtain ⟨q, hq⟩ := chooseNextAux_mem r perm 0 s hs
    have hmem : (s, q) ∈ selRows (chainTable occs) p := hperm.mem_iff.1 hq
    obtain ⟨row, hrow, heq⟩ := List.mem_map.1 hmem
    injection heq with h1 h2
    refine ⟨q, hmem, ?_⟩
    rw [← h2]
    exact chainTable_prob_pos occs row (List.mem_filter.1 hrow).1

/-- Witness for C6: the context `"zzz"` has no rows in the table built
from the single occurrence `("a", "b")`, and the sampler returns
nothing for it. -/
theorem sampler_boundedness_witness :
    chooseNextWord [] (1 / 2) = none := by
  have h : selRows (chainTable [("a", "b")]) "zzz" = [] := by decide
  exact (sampler_boundedness [("a", "b")] "zzz" [] (1 / 2)
    (by rw [h])).1 h

/-- C8: chain construction is deterministic and a pure multiset reduction:
the occurrence counts, the per-context totals and the membership of the
final `(prefix, suffix, num_occurrences, probability)` table are invariant
under any permutation of the raw occurrence pairs, so two runs of the
build on the same corpus and lookback produce identical tables. -/
theorem build_deterministic (l1 l2 : List (String × String)) (hperm : l1.Perm l2) :
    (∀ p s, numOccurrences l1 p s = numOccurrences l2 p s) ∧
    (∀ p, totalOccurrences l1 p = totalOccurrences l2 p) ∧
    (∀ row, row ∈ chainTable l1 ↔ row ∈ chainTable l2) := by
  have hnum : ∀ p s, numOccurrences l1 p s = numOccurrences l2 p s := by
    intro p s
    exact (hperm.filter fun x => decide (x.1 = p ∧ x.2 = s)).length_eq
  have htot : ∀ p, totalOccurrences l1 p = totalOccurrences l2 p := by
    intro p
    rw [total_eq_length, total_eq_length]
    exact (hperm.filter fun x => decide (x.1 = p)).length_eq
  refine ⟨hnum, htot, ?_⟩
  intro row
  unfold chainTable
  rw [List.mem_map, List.mem_map]
  constructor
  · rintro ⟨q, hq, rfl⟩
    refine ⟨q, (hperm.dedup.mem_iff).1 hq, ?_⟩
    rw [hnum, htot]
  · rintro ⟨q, hq, rfl⟩
    refine ⟨q, (hperm.dedup.mem_iff).2 hq, ?_⟩
    rw [hnum, htot]

/-- Witness for C8: the two orderings of the same raw occurrence pairs
agree on the count of `("a", "b")`. -/
theorem build_deterministic_witness :
    numOccurrences [("a", "b"), ("a", "c")] "a" "b" =
      numOccurrences [("a", "c"), ("a", "b")] "a" "b" :=
  (build_deterministic [("a", "b"), ("a", "c")] [("a", "c"), ("a", "b")]
    (List.Perm.swap ("a", "c") ("a", "b") [])).1 "a" "b"

theorem tryWindows_filter {σ : Type} (env : GenEnv σ) (queue : List String) :
    ∀ (L : List Nat) (t : σ),
      tryWindows env queue L t =
        tryWindows env queue (L.filter fun n => n ≤ queue.length) t := by
  intro L
  induction L with
  | nil => intro t; rfl
  | cons n rest ih =>
    intro t
    rw [List.filter_cons]
    by_cases hn : n ≤ queue.length
    · rw [if_pos (by simpa using hn), tryWindows, tryWindows, if_pos hn, if_pos hn]
      by_cases ht :
          truthy (env.chooseNext t (joinSpace (lastN n queue))).1 = true
      · rw [if_pos ht, if_pos ht]
      · rw [if_neg ht, if_neg ht, ih]
    · rw [if_neg (by simpa using hn), tryWindows, if_neg hn, ih]

theorem descSeq_mem {k lookback : Nat} (hk2 : k ≤ lookback) :
    ∀ n ∈ descSeq k, 1 ≤ n ∧ n ≤ lookback := by
  intro n hn
  rw [descSeq, List.mem_reverse, List.mem_range'] at hn
  omega

/-- C7: the growth loop of `generate_sentence`, characterized: (a) it only
runs while the last queued token does not contain `.`; (b) the shrinking
window scan is insensitive to window lengths longer than the current queue
(they are skipped); (c) when `randint` draws `k` with `1 ≤ k ≤ lookback`,
the window lengths tried are `k, k-1, ..., 1`, all within `[1, lookback]`;
(d) one iteration draws `k`, scans the windows, appends the first
continuation found and continues, and if no window yields one it stops,
returning the queue built so far as an ordinary (non-error) value. -/
theorem growth_loop_spec {σ : Type} (env : GenEnv σ) (lookback fuel k : Nat)
    (queue : List String) (s s1 : σ) :
    (containsDot (lastTok queue) = true →
      growLoop env lookback (fuel + 1) queue s = (queue, s)) ∧
    (∀ (L : List Nat) (t : σ),
      tryWindows env queue L t =
        tryWindows env queue (L.filter fun n => n ≤ queue.length) t) ∧
    (1 ≤ k → k ≤ lookback → descSeq k = (List.range' 1 k).reverse ∧
      ∀ n ∈ descSeq k, 1 ≤ n ∧ n ≤ lookback) ∧
    (containsDot (lastTok queue) = false → env.randint s lookback = (k, s1) →
      growLoop env lookback (fuel + 1) queue s =
        match tryWindows env queue (descSeq k) s1 with
        | (none, s2) => (queue, s2)
        | (some w, s2) => growLoop env lookback fuel (queue ++ [w]) s2) := by
  refine ⟨?_, tryWindows_filter env queue, ?_, ?_⟩
  · intro hdot
    rw [growLoop, if_pos hdot]
  · intro _hk1 hk2
    exact ⟨rfl, descSeq_mem hk2⟩
  · intro hdot hdraw
    rw [growLoop, if_neg (by simp [hdot]), hdraw]

/-- Witness for C7, part (a): a queue already ending in a dotted token
is returned unchanged. -/
theorem growth_loop_spec_witness :
    growLoop noneEnv 3 1 ["end."] () = (["end."], ()) :=
  (growth_loop_spec noneEnv 3 0 1 ["end."] () ()).1 (by decide)

/-- C3 counterexample: a run of `generate_sentence` with the escape flag
set (`prevent_recursion = true`) whose own seed and growth loop assemble
the one-word sentence `"a."`; because `1 < min_words`, line 163's
condition `len(word_queue) < min_words or (len(out) > max_length and not
prevent_recursion)` is still true, so this call recursively regenerates
and returns `"b c d e f."` — not its own assembled sentence, refuting the
claim that the escape flag disables the quality re-check regardless of
word count. -/
theorem retry_escape_counterexample :
    seed scriptEnv none
        [some "a.", some "b", some "c", some "d", some "e", some "f."] =
      Except.ok (["a."], [some "b", some "c", some "d", some "e", some "f."]) ∧
    growLoop scriptEnv 1 10 ["a."]
        [some "b", some "c", some "d", some "e", some "f."] =
      (["a."], [some "b", some "c", some "d", some "e", some "f."]) ∧
    generateSentence scriptEnv 1 10 1
        [some "a.", some "b", some "c", some "d", some "e", some "f."]
        none 5 140 true =
      Except.ok ("b c d e f.", []) ∧
    ("b c d e f." : String) ≠ joinSpace ["a."] :=
  ⟨rfl, rfl, rfl, by decide⟩

/-- C3 amended: with `prevent_recursion` set, only the character-length
re-check (`len(out) > max_length`) is disabled: whenever the queue
assembled by the call's own seed and growth loop reaches `min_words`
words, the call returns that joined sentence with no further recursion,
for any `max_length`; a queue below `min_words` still triggers the retry
(see the counterexample), so termination of the retry chain is not
guaranteed by the flag alone. -/
theorem retry_escape_amended {σ : Type} (env : GenEnv σ)
    (lb loopFuel rfuel : Nat) (s s0 s1 : σ) (sw : Option String)
    (minW maxL : Nat) (q0 q : List String)
    (hseed : seed env sw s = Except.ok (q0, s0))
    (hgrow : growLoop env lb loopFuel q0 s0 = (q, s1))
    (hlen : minW ≤ q.length) :
    generateSentence env lb loopFuel rfuel s sw minW maxL true =
      Except.ok (joinSpace q, s1) := by
  rw [generateSentence, hseed]
  simp only [hgrow]
  rw [if_neg]
  simp [Nat.not_lt.2 hlen]

/-- Witness for C3 amended: a five-word sentence is returned as-is under
the escape flag even though `max_length` is 0 (so the character-length
bound is exceeded). -/
theorem retry_escape_amended_witness :
    generateSentence scriptEnv 1 10 0
        [some "x", some "y", some "z", some "w", some "v."] none 5 0 true =
      Except.ok ("x y z w v.", []) :=
  retry_escape_amended scriptEnv 1 10 0
    [some "x", some "y", some "z", some "w", some "v."]
    [some "y", some "z", some "w", some "v."] [] none 5 0
    ["x"] ["x", "y", "z", "w", "v."] rfl rfl (by decide)

/-- C4 (code bug): a full run whose queue is
`["cats", "and", "dogs", "really", "run."]` (5 words, 25 characters, so
no quality retry fires) returns the plain join `"cats and dogs really
run."`: line 161 overwrites the capitalized string built at lines
139/143, so the first token is NOT capitalized, contradicting the claimed
output `"Cats and dogs really run."`. -/
theorem output_not_capitalized :
    generateSentence scriptEnv 1 10 0
        [some "cats", some "and", some "dogs", some "really", some "run."]
        none 5 140 false =
      Except.ok ("cats and dogs really run.", []) ∧
    joinSpace (capFirst ["cats", "and", "dogs", "really", "run."]) =
      "Cats and dogs really run." ∧
    ("cats and dogs really run." : String) ≠ "Cats and dogs really run." :=
  ⟨rfl, rfl, by decide⟩

/-- C10 counterexample: when every sampler lookup fails, the generator
raises the `AttributeError` of `first_word.capitalize()` at line 143 —
inside the seeding step, before the growth loop ever inspects the queue
tail at line 145 — so the failure site claimed ("at the first queue-tail
inspection") is wrong, though an uncaught error is indeed raised instead
of returning an empty sentence. -/
theorem seed_error_counterexample :
    generateSentence noneEnv 3 10 2 () none 5 140 false =
      Except.error GenErr.noneCapitalize ∧
    seed noneEnv none () = Except.error GenErr.noneCapitalize ∧
    GenErr.noneCapitalize ≠ GenErr.noneTailFind :=
  ⟨rfl, rfl, by decide⟩

/-- C10 amended: whenever the seeding step obtains no continuation, the
only error it can raise is the `None.capitalize()` error of line 143
(before any queue-tail inspection), and `generate_sentence` propagates it
uncaught instead of returning an empty or truncated sentence. -/
theorem seed_error_amended {σ : Type} (env : GenEnv σ)
    (lb loopFuel rfuel : Nat) (s : σ) (sw : Option String)
    (minW maxL : Nat) (pr : Bool) (e : GenErr)
    (h : seed env sw s = Except.error e) :
    e = GenErr.noneCapitalize ∧
    generateSentence env lb loopFuel rfuel s sw minW maxL pr =
      Except.error GenErr.noneCapitalize := by
  have he : e = GenErr.noneCapitalize := by
    rw [seed] at h
    split at h
    · exact absurd h (by simp)
    · split at h
      · exact (Except.error.inj h).symm
      · exact absurd h (by simp)
  refine ⟨he, ?_⟩
  rw [generateSentence, h, he]

/-- Witness for C10 amended: with a start word and a sampler that never
answers, the generator raises the capitalize error. -/
theorem seed_error_amended_witness :
    generateSentence noneEnv 2 5 1 () (some "Hello") 5 140 true =
      Except.error GenErr.noneCapitalize :=
  (seed_error_amended noneEnv 2 5 1 () (some "Hello") 5 140 true
    GenErr.noneCapitalize rfl).2

end Nonsense
